import Mathlib

/-!
Verification of the Mirror reverse-proxy core: a shallow embedding of the
security guard (src/security/allowlist.ts and the ssrf-guard module), the
file cache (src/cache/file-cache.ts), the HTML/CSS rewriters
(src/mirror/rewrite-html.ts), and the proxy pipeline / resolve operation
(src/mirror/proxy.ts, src/routes/public.ts), together with theorems that
settle the frozen claims about them.

Conventions of the embedding:
* JavaScript numbers on integral values are modelled as `Nat` with explicit
  `% 2 ^ 32` where the source coerces to 32 bits (`>>> 0`).
* Fallible operations (`throw new Error(msg)`) become `Except String`
  carrying the thrown message.
* The filesystem of the cache and the SQLite registry become explicit
  association-list states threaded through the functions.
* `fetch`, DNS and randomness become function parameters, so every
  definition stays executable.
* String primitives of the JS runtime (trim, toLowerCase, split, ...) are
  re-implemented structurally over `List Char` so that concrete witnesses
  evaluate inside the kernel.
-/

deriving instance DecidableEq for Except

namespace Mirror

/-! ## String primitives -/

/-- ASCII lowering, the fragment of `toLowerCase` the program exercises
(hostnames and header names are ASCII). -/
def lowerChar (c : Char) : Char :=
  if 'A' ≤ c ∧ c ≤ 'Z' then Char.ofNat (c.toNat + 32) else c

def strLower (s : String) : String := ⟨s.toList.map lowerChar⟩

/-- The whitespace class of JS `trim` restricted to ASCII. -/
def wsChar (c : Char) : Bool :=
  c = ' ' ∨ c = '\t' ∨ c = '\n' ∨ c = '\r' ∨ c = '\x0b' ∨ c = '\x0c'

def strTrim (s : String) : String :=
  ⟨((s.toList.dropWhile wsChar).reverse.dropWhile wsChar).reverse⟩

def strStartsWith (s pre : String) : Bool := pre.toList.isPrefixOf s.toList

def strEndsWith (s suf : String) : Bool := suf.toList.isSuffixOf s.toList

def splitOnCharList (sep : Char) : List Char → List (List Char)
  | [] => [[]]
  | c :: rest =>
    let r := splitOnCharList sep rest
    if c = sep then [] :: r
    else match r with
      | [] => [[c]]
      | h :: t => (c :: h) :: t

/-- `s.split(sep)` for a one-character separator. -/
def splitOnChar (sep : Char) (s : String) : List String :=
  (splitOnCharList sep s.toList).map List.asString

def digitsToNat : List Char → Nat → Nat
  | [], acc => acc
  | c :: rest, acc => digitsToNat rest (acc * 10 + (c.toNat - 48))

/-- Decimal parse of a non-empty all-digit string. -/
def strToNat? (s : String) : Option Nat :=
  if s.toList ≠ [] ∧ s.toList.all Char.isDigit then some (digitsToNat s.toList 0)
  else none

def removeFirstChar (target : Char) : List Char → List Char
  | [] => []
  | c :: rest => if c = target then rest else c :: removeFirstChar target rest

/-! ## URL model

A parsed WHATWG URL as the program observes it: `scheme` has no trailing
colon, `hostname` is lowercased by parsing, `port` is `none` when absent or
equal to the scheme default (the JS `URL` object normalizes default ports
away), `path` starts with "/" for http(s) URLs, and `query` is either empty
or starts with "?". -/

structure Url where
  scheme : String
  username : String
  password : String
  hostname : String
  port : Option Nat
  path : String
  query : String
deriving DecidableEq, Repr

/-- `url.protocol` of the JS URL object: scheme plus a colon. -/
def Url.protocol (u : Url) : String := u.scheme ++ ":"

/-- `url.host` of the JS URL object: hostname plus an explicit port. -/
def Url.host (u : Url) : String :=
  u.hostname ++ (match u.port with
    | some p => ":" ++ toString p
    | none => "")

/-- `url.origin` of the JS URL object for http(s) URLs. -/
def Url.origin (u : Url) : String := u.scheme ++ "://" ++ u.host

/-- `url.pathname` of the JS URL object. -/
def Url.pathname (u : Url) : String := u.path

/-- `url.search` of the JS URL object ("" or "?..."). -/
def Url.search (u : Url) : String := u.query

/-! ## SSRF guard (src/security/ssrf-guard.ts) -/

/-- The inline `hostname.trim().toLowerCase()` of `assertSafeHostname`. -/
def normalizeHostStr (s : String) : String := strLower (strTrim s)

/-- Drop leading and trailing dots, the `replace(/^\.+|\.+$/g, '')` part of
the allowlist's `normalizeHost`. -/
def dropDots (s : String) : String :=
  ⟨((s.toList.dropWhile (· = '.')).reverse.dropWhile (· = '.')).reverse⟩

/-- `normalizeHost` of src/security/allowlist.ts: trim, lowercase, strip
surrounding dots. -/
def normalizeHost (s : String) : String := dropDots (strLower (strTrim s))

/-- One dotted-quad component as `net.isIP` accepts it: 1–3 digits, no
leading zero, value at most 255. -/
def parseOctet (s : String) : Option Nat :=
  match s.toList with
  | [] => none
  | c :: cs =>
    if ¬ (c :: cs).all Char.isDigit then none
    else if cs ≠ [] ∧ c = '0' then none
    else
      let n := digitsToNat (c :: cs) 0
      if n ≤ 255 then some n else none

/-- `net.isIP(s) === 4`: a literal IPv4 dotted quad. -/
def isIPv4 (s : String) : Bool :=
  match splitOnChar '.' s with
  | [a, b, c, d] =>
    (parseOctet a).isSome && (parseOctet b).isSome &&
    (parseOctet c).isSome && (parseOctet d).isSome
  | _ => false

/-- Model of `net.isIP`: 4 for a dotted quad, 6 for a colon-bearing string,
0 otherwise. `net.isIP` additionally validates IPv6 syntax; hostnames never
contain a colon (URL parsing strips the port), so the colon test only
stands in for the v6 literal case, which no claim exercises. -/
def netIsIP (s : String) : Nat :=
  if isIPv4 s then 4 else if s.toList.contains ':' then 6 else 0

/-- `ipToInt`: `ip.split('.').reduce((acc, o) => (acc << 8) + Number(o), 0) >>> 0`.
On the dotted quads that reach it (they passed `net.isIP`) this is the
big-endian base-256 value, reduced to 32 bits like the final `>>> 0`. -/
def ipToInt (ip : String) : Nat :=
  ((splitOnChar '.' ip).foldl (fun acc oct => acc * 256 + ((strToNat? oct).getD 0)) 0) % 2 ^ 32

/-- `IPV4_PRIVATE_RANGES` of src/security/ssrf-guard.ts, verbatim. -/
def IPV4_PRIVATE_RANGES : List (Nat × Nat) :=
  [ (ipToInt "0.0.0.0", ipToInt "0.255.255.255"),
    (ipToInt "10.0.0.0", ipToInt "10.255.255.255"),
    (ipToInt "100.64.0.0", ipToInt "100.127.255.255"),
    (ipToInt "127.0.0.0", ipToInt "127.255.255.255"),
    (ipToInt "169.254.0.0", ipToInt "169.254.255.255"),
    (ipToInt "172.16.0.0", ipToInt "172.31.255.255"),
    (ipToInt "192.0.0.0", ipToInt "192.0.0.255"),
    (ipToInt "192.0.2.0", ipToInt "192.0.2.255"),
    (ipToInt "192.168.0.0", ipToInt "192.168.255.255"),
    (ipToInt "198.18.0.0", ipToInt "198.19.255.255"),
    (ipToInt "198.51.100.0", ipToInt "198.51.100.255"),
    (ipToInt "203.0.113.0", ipToInt "203.0.113.255"),
    (ipToInt "224.0.0.0", ipToInt "255.255.255.255") ]

/-- `isPrivateIpv4` of src/security/ssrf-guard.ts. -/
def isPrivateIpv4 (ip : String) : Bool :=
  let value := ipToInt ip
  IPV4_PRIVATE_RANGES.any (fun r => decide (r.1 ≤ value) && decide (value ≤ r.2))

/-- `isBlockedIpv6` of src/security/ssrf-guard.ts. -/
def isBlockedIpv6 (ip : String) : Bool :=
  let normalized := strLower ip
  normalized == "::1" ||
  normalized == "::" ||
  strStartsWith normalized "fc" ||
  strStartsWith normalized "fd" ||
  strStartsWith normalized "fe80:" ||
  strStartsWith normalized "::ffff:127." ||
  strStartsWith normalized "::ffff:10." ||
  strStartsWith normalized "::ffff:192.168." ||
  strStartsWith normalized "::ffff:172.16." ||
  strStartsWith normalized "::ffff:172.17." ||
  strStartsWith normalized "::ffff:172.18." ||
  strStartsWith normalized "::ffff:172.19." ||
  strStartsWith normalized "::ffff:172.2" ||
  strStartsWith normalized "::ffff:169.254."

/-- `assertSafeIp` of src/security/ssrf-guard.ts. -/
def assertSafeIp (ip : String) : Except String Unit :=
  let family := netIsIP ip
  if family = 0 then .error "invalid_ip"
  else if family = 4 ∧ isPrivateIpv4 ip then .error "ssrf_blocked"
  else if family = 6 ∧ isBlockedIpv6 ip then .error "ssrf_blocked"
  else .ok ()

/-- `assertSafeHostname` of src/security/ssrf-guard.ts. -/
def assertSafeHostname (hostname : String) : Except String Unit :=
  let host := normalizeHostStr hostname
  if host = "" then .error "empty_hostname"
  else if host = "localhost" ∨ strEndsWith host ".localhost" then .error "ssrf_blocked"
  else if host = "metadata.google.internal" then .error "ssrf_blocked"
  else if host = "169.254.169.254" then .error "ssrf_blocked"
  else if netIsIP host ≠ 0 then assertSafeIp host
  else .ok ()

/-- `assertSafeResolvedHost` of src/security/ssrf-guard.ts. `dns` models
`dns.lookup(hostname, { all: true })` as the list of answer addresses. -/
def assertSafeResolvedHost (dns : String → List String) (hostname : String) :
    Except String Unit := do
  assertSafeHostname hostname
  let answers := dns hostname
  if answers.isEmpty then throw "dns_resolution_failed"
  answers.forM assertSafeIp

/-- `assertSafeUrl` of src/security/ssrf-guard.ts. -/
def assertSafeUrl (dns : String → List String) (url : Url) (allowHttp : Bool) :
    Except String Unit := do
  if ¬ (url.protocol = "https:" ∨ url.protocol = "http:") then throw "invalid_scheme"
  if url.protocol = "http:" ∧ ¬ allowHttp then throw "invalid_scheme"
  if url.username ≠ "" ∨ url.password ≠ "" then throw "credentials_not_allowed"
  assertSafeResolvedHost dns url.hostname

/-! ## Allowlist matcher (src/security/allowlist.ts) -/

structure AllowlistEntry where
  id : String
  host : String
  allowSubdomains : Bool
  schemes : List String
  enabled : Bool
deriving DecidableEq, Repr

/-- `AllowlistStore.match`: the first enabled entry whose schemes include
the URL scheme and whose host equals the URL host, or is a dot-boundary
suffix of it when `allowSubdomains` is set. The in-memory entry list stands
for `this.state.entries`; `url.protocol.replace(':', '')` removes the first
(only) colon. -/
def allowlistMatch (entries : List AllowlistEntry) (url : Url) : Option AllowlistEntry :=
  let host := normalizeHost url.hostname
  let scheme : String := ⟨removeFirstChar ':' url.protocol.toList⟩
  entries.find? (fun entry =>
    entry.enabled &&
    entry.schemes.contains scheme &&
    (entry.host == host || (entry.allowSubdomains && strEndsWith host ("." ++ entry.host))))

/-- `AllowlistStore.isAllowed`. -/
def allowlistIsAllowed (entries : List AllowlistEntry) (url : Url) : Bool :=
  (allowlistMatch entries url).isSome

/-! ## Error-to-status maps of the two request surfaces -/

/-- The status chosen by the `catch` arm of `POST /api/resolve` in
src/routes/public.ts for a failure message. -/
def publicResolveErrorStatus (message : String) : Nat :=
  if message == "invalid_url" || message == "invalid_scheme" then 400
  else if message == "domain_not_allowed" || message == "ssrf_blocked" then 403
  else if message == "rate_limited" then 429
  else 400

/-- The status chosen by the `catch` arm of `handleMirrorRequest` in
src/mirror/proxy.ts for a failure message. -/
def mirrorErrorStatus (message : String) : Nat :=
  if message == "domain_not_allowed" || message == "ssrf_blocked" then 403
  else if message == "invalid_url" then 400
  else 502

end Mirror

namespace Mirror

/-! ## Reduction lemmas for the guard -/

/-- For an https URL without credentials the scheme and userinfo checks of
`assertSafeUrl` pass and the call reduces to host validation. -/
theorem assertSafeUrl_reduces (dns : String → List String) (u : Url) (ah : Bool)
    (h1 : u.protocol = "https:") (h2 : u.username = "") (h3 : u.password = "") :
    assertSafeUrl dns u ah = assertSafeResolvedHost dns u.hostname := by
  simp only [assertSafeUrl, h1, h2, h3]
  simp

/-- A hostname rejected by `assertSafeHostname` is rejected by
`assertSafeResolvedHost` before DNS resolution is consulted. -/
theorem assertSafeResolvedHost_error (dns : String → List String) (h : String) (e : String)
    (hh : assertSafeHostname h = .error e) :
    assertSafeResolvedHost dns h = .error e := by
  simp only [assertSafeResolvedHost, hh]
  rfl

/-! ## Claim C2: the SSRF guard blocks the listed hosts and IPv4 ranges.

`specBlockedIpv4` and `specBlockedHostname` follow the words of the claim
(CIDR blocks); the theorem compares them against the source's interval
table `IPV4_PRIVATE_RANGES` / `isPrivateIpv4`. -/

def ipNum (a b c d : Nat) : Nat := ((a * 256 + b) * 256 + c) * 256 + d

def cidrRange (base width v : Nat) : Prop := base ≤ v ∧ v < base + 2 ^ (32 - width)

/-- The blocked-IPv4 ranges exactly as the claim words them (CIDR blocks,
with 224.0.0.0/4 "and above" read as every address from 224.0.0.0 up). -/
def specBlockedIpv4 (v : Nat) : Prop :=
  cidrRange (ipNum 0 0 0 0) 8 v ∨ cidrRange (ipNum 10 0 0 0) 8 v ∨
  cidrRange (ipNum 100 64 0 0) 10 v ∨ cidrRange (ipNum 127 0 0 0) 8 v ∨
  cidrRange (ipNum 169 254 0 0) 16 v ∨ cidrRange (ipNum 172 16 0 0) 12 v ∨
  cidrRange (ipNum 192 0 0 0) 24 v ∨ cidrRange (ipNum 192 0 2 0) 24 v ∨
  cidrRange (ipNum 192 168 0 0) 16 v ∨ cidrRange (ipNum 198 18 0 0) 15 v ∨
  cidrRange (ipNum 198 51 100 0) 24 v ∨ cidrRange (ipNum 203 0 113 0) 24 v ∨
  ipNum 224 0 0 0 ≤ v

/-- The hostname condition exactly as the claim words it. -/
def specBlockedHostname (h : String) : Prop :=
  h = "localhost" ∨ strEndsWith h ".localhost" = true ∨
  h = "metadata.google.internal" ∨ h = "169.254.169.254" ∨
  (isIPv4 h = true ∧ specBlockedIpv4 (ipToInt h))

instance (base width v : Nat) : Decidable (cidrRange base width v) := by
  unfold cidrRange; infer_instance

instance (v : Nat) : Decidable (specBlockedIpv4 v) := by
  unfold specBlockedIpv4; infer_instance

instance (h : String) : Decidable (specBlockedHostname h) := by
  unfold specBlockedHostname; infer_instance

/-- The source's interval table, evaluated. -/
theorem ranges_eval : IPV4_PRIVATE_RANGES =
    [(0, 16777215), (167772160, 184549375), (1681915904, 1686110207),
     (2130706432, 2147483647), (2851995648, 2852061183), (2886729728, 2887778303),
     (3221225472, 3221225727), (3221225984, 3221226239), (3232235520, 3232301055),
     (3323068416, 3323199487), (3325256704, 3325256959), (3405803776, 3405804031),
     (3758096384, 4294967295)] := by decide

/-- Every address inside the claim's CIDR blocks is inside the source's
interval table. -/
theorem specBlocked_isPrivate (ip : String) (hval : specBlockedIpv4 (ipToInt ip)) :
    isPrivateIpv4 ip = true := by
  have hlt : ipToInt ip < 2 ^ 32 := Nat.mod_lt _ (by norm_num)
  simp only [isPrivateIpv4, ranges_eval, List.any_cons, List.any_nil,
    Bool.or_eq_true, Bool.and_eq_true, decide_eq_true_eq, Bool.or_false]
  norm_num [specBlockedIpv4, cidrRange, ipNum] at hval
  omega

/-- A dotted-quad literal is never the empty hostname. -/
theorem ipv4_not_empty (h : String) (hip : isIPv4 h = true) : h ≠ "" := by
  intro he
  rw [he] at hip
  exact absurd hip (by decide)

/-- C2: for every URL with scheme https, no userinfo, and a hostname that
is localhost, a subdomain of localhost, metadata.google.internal,
169.254.169.254, or a literal IPv4 address lying in one of the claimed
CIDR ranges, `assertSafeUrl` fails with ssrf_blocked. The hypothesis
`hnorm` states that the hostname is already in parsed (trimmed, lowercase)
form, which the JS URL parser guarantees. -/
theorem C2_assertSafeUrl_blocks_listed_hosts
    (dns : String → List String) (allowHttp : Bool) (u : Url)
    (hscheme : u.scheme = "https") (huser : u.username = "") (hpass : u.password = "")
    (hnorm : normalizeHostStr u.hostname = u.hostname)
    (hblocked : specBlockedHostname u.hostname) :
    assertSafeUrl dns u allowHttp = .error "ssrf_blocked" := by
  have hproto : u.protocol = "https:" := by rw [Url.protocol, hscheme]; decide
  rw [assertSafeUrl_reduces dns u allowHttp hproto huser hpass]
  apply assertSafeResolvedHost_error
  rcases hblocked with h1 | h2 | h3 | h4 | ⟨hip, hval⟩
  · rw [h1]; decide
  · have hne : u.hostname ≠ "" := by
      intro he; rw [he] at h2; exact absurd h2 (by decide)
    simp only [assertSafeHostname, hnorm]
    rw [if_neg hne, if_pos (Or.inr h2)]
  · rw [h3]; decide
  · rw [h4]; decide
  · have hne := ipv4_not_empty _ hip
    simp only [assertSafeHostname, hnorm]
    rw [if_neg hne]
    by_cases hc1 : u.hostname = "localhost" ∨ strEndsWith u.hostname ".localhost" = true
    · rw [if_pos hc1]
    · rw [if_neg hc1]
      by_cases hc2 : u.hostname = "metadata.google.internal"
      · rw [if_pos hc2]
      · rw [if_neg hc2]
        by_cases hc3 : u.hostname = "169.254.169.254"
        · rw [if_pos hc3]
        · rw [if_neg hc3]
          have hfam : netIsIP u.hostname = 4 := by simp [netIsIP, hip]
          rw [if_pos (by rw [hfam]; omega)]
          simp only [assertSafeIp, hfam]
          rw [if_neg (by omega), if_pos ⟨trivial, specBlocked_isPrivate _ hval⟩]

/-- Witness for C2 at the concrete URL https://10.1.2.3/. -/
theorem C2_witness :
    (normalizeHostStr "10.1.2.3" = "10.1.2.3" ∧ specBlockedHostname "10.1.2.3") ∧
    assertSafeUrl (fun _ => []) ⟨"https", "", "", "10.1.2.3", none, "/", ""⟩ false
      = .error "ssrf_blocked" :=
  ⟨⟨by decide, by decide⟩,
    C2_assertSafeUrl_blocks_listed_hosts (fun _ => []) false
      ⟨"https", "", "", "10.1.2.3", none, "/", ""⟩ rfl rfl rfl (by decide) (by decide)⟩

/-! ## Claim C9: the HTTP status of dns_resolution_failed failures. -/

/-- C9 counterexample: the claim states that POST /api/resolve maps a
dns_resolution_failed failure to status 502, but the route's catch arm has
no case for it and falls through to 400. -/
theorem C9_counterexample :
    publicResolveErrorStatus "dns_resolution_failed" = 400 ∧
    ¬ publicResolveErrorStatus "dns_resolution_failed" = 502 := by decide

/-- C9 amended: a dns_resolution_failed failure of a mirrored GET/HEAD
request is mapped to 502 by `handleMirrorRequest`, while POST /api/resolve
maps the same failure to 400 through its fallback arm. -/
theorem C9_amended_status_mapping :
    mirrorErrorStatus "dns_resolution_failed" = 502 ∧
    publicResolveErrorStatus "dns_resolution_failed" = 400 := by decide

/-! ## Claim C10: the allowlist matcher reads only scheme and hostname. -/

/-- C10: `AllowlistStore.match` depends only on the URL scheme and
hostname; two URLs differing only in port, path, query or credentials
produce the same match result, so an allowlisted host is permitted on
every port. -/
theorem C10_allowlistMatch_ignores_port_path_credentials
    (entries : List AllowlistEntry) (u1 u2 : Url)
    (hs : u1.scheme = u2.scheme) (hh : u1.hostname = u2.hostname) :
    allowlistMatch entries u1 = allowlistMatch entries u2 ∧
    allowlistIsAllowed entries u1 = allowlistIsAllowed entries u2 := by
  have hm : allowlistMatch entries u1 = allowlistMatch entries u2 := by
    simp only [allowlistMatch, Url.protocol, hs, hh]
  exact ⟨hm, by simp only [allowlistIsAllowed, hm]⟩

/-- Witness for C10: the same host matched with and without an explicit
port, path, query and credentials. -/
theorem C10_witness :
    (Url.scheme ⟨"https", "", "", "example.com", none, "/", ""⟩ =
       Url.scheme ⟨"https", "u", "p", "example.com", some 8443, "/deep", "?x=1"⟩ ∧
     Url.hostname ⟨"https", "", "", "example.com", none, "/", ""⟩ =
       Url.hostname ⟨"https", "u", "p", "example.com", some 8443, "/deep", "?x=1"⟩) ∧
    allowlistMatch [⟨"example-com", "example.com", false, ["https"], true⟩]
        ⟨"https", "", "", "example.com", none, "/", ""⟩ =
      allowlistMatch [⟨"example-com", "example.com", false, ["https"], true⟩]
        ⟨"https", "u", "p", "example.com", some 8443, "/deep", "?x=1"⟩ :=
  ⟨⟨rfl, rfl⟩,
    (C10_allowlistMatch_ignores_port_path_credentials
      [⟨"example-com", "example.com", false, ["https"], true⟩]
      ⟨"https", "", "", "example.com", none, "/", ""⟩
      ⟨"https", "u", "p", "example.com", some 8443, "/deep", "?x=1"⟩ rfl rfl).1⟩

end Mirror

namespace Mirror

/-! ## Claim C5: the response header policy of the proxy pipeline.

`copySafeHeaders` of src/mirror/proxy.ts copies upstream headers onto the
reply, skipping the hop-by-hop set, content-security-policy and set-cookie
always, and content-length / content-encoding / etag when the body was
rewritten, then sets `x-robots-tag: noindex, nofollow`. Reply headers are
modelled as an association list where setting a header replaces any
earlier case-insensitive occurrence, as Fastify does. -/

def hopByHopHeaders : List String :=
  ["connection", "transfer-encoding", "keep-alive", "proxy-authenticate",
   "proxy-authorization", "te", "trailers", "upgrade"]

/-- `reply.header(k, v)`: case-insensitive replacement. -/
def setHeader (hs : List (String × String)) (k v : String) : List (String × String) :=
  hs.filter (fun p => strLower p.1 ≠ strLower k) ++ [(k, v)]

def getHeader (hs : List (String × String)) (k : String) : Option String :=
  (hs.find? (fun p => strLower p.1 == strLower k)).map (fun p => p.2)

def hasHeader (hs : List (String × String)) (k : String) : Bool :=
  hs.any (fun p => strLower p.1 == strLower k)

/-- The skip condition of the copy loop in `copySafeHeaders`, applied to
the lowercased key. -/
def headerDropped (rewrittenBody : Bool) (lower : String) : Bool :=
  hopByHopHeaders.contains lower ||
  lower == "content-security-policy" ||
  lower == "set-cookie" ||
  (rewrittenBody && (lower == "content-length" || lower == "content-encoding" || lower == "etag"))

/-- `copySafeHeaders` of src/mirror/proxy.ts. -/
def copySafeHeaders (upstream : List (String × String)) (rewrittenBody : Bool) :
    List (String × String) :=
  let hs := upstream.foldl
    (fun acc kv => if headerDropped rewrittenBody (strLower kv.1) then acc
                   else setHeader acc kv.1 kv.2) []
  setHeader hs "x-robots-tag" "noindex, nofollow"

theorem hasHeader_filter (acc : List (String × String)) (q : String × String → Bool)
    (name : String) (h : hasHeader acc name = false) :
    hasHeader (acc.filter q) name = false := by
  induction acc with
  | nil => rfl
  | cons p l ih =>
    simp only [hasHeader, List.any_cons, Bool.or_eq_false_iff] at h
    by_cases hq : q p = true
    · simp only [List.filter_cons, hq, if_pos]
      simp only [hasHeader, List.any_cons, Bool.or_eq_false_iff]
      exact ⟨h.1, ih h.2⟩
    · simp only [List.filter_cons]
      rw [if_neg hq]
      exact ih h.2

theorem hasHeader_setHeader (acc : List (String × String)) (k v name : String)
    (hacc : hasHeader acc name = false) (hk : (strLower k == strLower name) = false) :
    hasHeader (setHeader acc k v) name = false := by
  simp only [setHeader, hasHeader, List.any_append, List.any_cons, List.any_nil,
    Bool.or_eq_false_iff]
  refine ⟨?_, hk, trivial⟩
  exact hasHeader_filter acc _ name hacc

/-- A header name the skip condition drops never appears in the copied
header set, whatever the upstream headers were. -/
theorem fold_no_dropped_name (rw : Bool) (name : String)
    (hdrop : headerDropped rw (strLower name) = true) (l : List (String × String)) :
    ∀ acc, hasHeader acc name = false →
      hasHeader (l.foldl
        (fun acc kv => if headerDropped rw (strLower kv.1) then acc
                       else setHeader acc kv.1 kv.2) acc) name = false := by
  induction l with
  | nil => intro acc hacc; exact hacc
  | cons kv l ih =>
    intro acc hacc
    simp only [List.foldl_cons]
    by_cases hd : headerDropped rw (strLower kv.1) = true
    · rw [if_pos hd]; exact ih acc hacc
    · rw [if_neg hd]
      apply ih
      apply hasHeader_setHeader acc kv.1 kv.2 name hacc
      by_cases he : (strLower kv.1 == strLower name) = true
      · exfalso
        have : strLower kv.1 = strLower name := eq_of_beq he
        rw [this] at hd
        exact hd hdrop
      · simpa using he

theorem getHeader_setHeader_self (hs : List (String × String)) (k v : String) :
    getHeader (setHeader hs k v) k = some v := by
  simp only [getHeader, setHeader]
  induction hs with
  | nil => simp
  | cons p l ih =>
    simp only [List.filter_cons]
    by_cases hq : (strLower p.1 ≠ strLower k)
    · rw [if_pos (by simpa using hq)]
      rw [List.cons_append, List.find?_cons_of_neg _ (by simpa using hq)]
      exact ih
    · rw [if_neg (by simpa using hq)]
      exact ih

/-- The headers the claim says are always absent from the assembled
response: the hop-by-hop set plus content-security-policy and set-cookie. -/
def responseHeaderBanList : List String :=
  hopByHopHeaders ++ ["content-security-policy", "set-cookie"]

theorem copySafe_no_banned (upstream : List (String × String)) (rw : Bool) (name : String)
    (hdrop : headerDropped rw (strLower name) = true)
    (hrob : (strLower "x-robots-tag" == strLower name) = false) :
    hasHeader (copySafeHeaders upstream rw) name = false := by
  unfold copySafeHeaders
  apply hasHeader_setHeader _ _ _ _ _ hrob
  exact fold_no_dropped_name rw name hdrop upstream [] rfl

/-- C5: for every upstream header set, the assembled outgoing headers
contain none of connection, transfer-encoding, keep-alive,
proxy-authenticate, proxy-authorization, te, trailers, upgrade,
content-security-policy or set-cookie; they carry
`x-robots-tag: noindex, nofollow`; and when the body was rewritten the
upstream content-length, content-encoding and etag are dropped as well. -/
theorem C5_copySafeHeaders_policy (upstream : List (String × String)) (rw : Bool) :
    responseHeaderBanList.all (fun b => !(hasHeader (copySafeHeaders upstream rw) b)) = true ∧
    getHeader (copySafeHeaders upstream rw) "x-robots-tag" = some "noindex, nofollow" ∧
    (["content-length", "content-encoding", "etag"].all
      (fun b => !(hasHeader (copySafeHeaders upstream true) b)) = true) := by
  refine ⟨?_, ?_, ?_⟩
  · simp only [responseHeaderBanList, hopByHopHeaders, List.cons_append, List.nil_append,
      List.all_cons, List.all_nil, Bool.and_eq_true, Bool.not_eq_true', and_true]
    refine ⟨?_, ?_, ?_, ?_, ?_, ?_, ?_, ?_, ?_, ?_⟩ <;>
      exact copySafe_no_banned _ _ _ (by cases rw <;> decide) (by decide)
  · unfold copySafeHeaders
    exact getHeader_setHeader_self _ _ _
  · simp only [List.all_cons, List.all_nil, Bool.and_eq_true, Bool.not_eq_true', and_true]
    refine ⟨?_, ?_, ?_⟩ <;>
      exact copySafe_no_banned _ _ _ (by decide) (by decide)

end Mirror


namespace Mirror

/-! ## Claim C1: the guarded redirect loop of the proxy pipeline. -/

/-- One validation or fetch action of the redirect loop, recorded in order. -/
inductive LoopStep (Url : Type) where
  | guardCheck (u : Url)
  | allowCheck (u : Url)
  | fetchCall (u : Url)
deriving DecidableEq

/-- An upstream response as the loop inspects it. -/
structure UpstreamResp (Url : Type) where
  status : Nat
  location : Option String
deriving DecidableEq

inductive FetchOutcome (Url : Type) where
  | success (resp : UpstreamResp Url) (finalUrl : Url)
  | failure (message : String)
deriving DecidableEq

/-- `fetchWithRedirectValidation` of src/mirror/proxy.ts, instrumented with
the list of guard / allowlist / fetch actions it performs, in order.
`guard` models `assertSafeUrl` (`none` = pass, `some e` = throw e),
`allow` models `allowlist.match(u) !== null`, `net` models one manual-
redirect fetch, and `resolveLoc` models `new URL(location, current)`.
The fuel is the hop bound, 5 at the call site. -/
def fetchWithRedirectValidation {Url : Type} [DecidableEq Url]
    (guard : Url → Option String) (allow : Url → Bool)
    (net : Url → UpstreamResp Url) (resolveLoc : String → Url → Url) :
    Nat → Url → List (LoopStep Url) × FetchOutcome Url
  | 0, _ => ([], .failure "too_many_redirects")
  | fuel + 1, current =>
    match guard current with
    | some e => ([.guardCheck current], .failure e)
    | none =>
      if allow current = false then
        ([.guardCheck current, .allowCheck current], .failure "domain_not_allowed")
      else
        let r := net current
        match (if 300 ≤ r.status ∧ r.status < 400 then r.location else none) with
        | some loc =>
          let next := resolveLoc loc current
          (match guard next with
           | some e =>
             ([.guardCheck current, .allowCheck current, .fetchCall current,
               .guardCheck next], .failure e)
           | none =>
             if allow next = false then
               ([.guardCheck current, .allowCheck current, .fetchCall current,
                 .guardCheck next, .allowCheck next], .failure "domain_not_allowed")
             else
               let rest := fetchWithRedirectValidation guard allow net resolveLoc fuel next
               (.guardCheck current :: .allowCheck current :: .fetchCall current ::
                 .guardCheck next :: .allowCheck next :: rest.1, rest.2))
        | none => ([.guardCheck current, .allowCheck current, .fetchCall current],
                   .success r current)

/-- Scans a step trace and checks that every fetch was preceded by a guard
evaluation and an allowlist evaluation of the fetched URL. -/
def fetchesValidated {Url : Type} [DecidableEq Url] :
    List Url → List Url → List (LoopStep Url) → Bool
  | _, _, [] => true
  | g, a, .guardCheck u :: rest => fetchesValidated (u :: g) a rest
  | g, a, .allowCheck u :: rest => fetchesValidated g (u :: a) rest
  | g, a, .fetchCall u :: rest =>
    if u ∈ g ∧ u ∈ a then fetchesValidated g a rest else false

theorem fetchesValidated_loop {Url : Type} [DecidableEq Url]
    (guard : Url → Option String) (allow : Url → Bool)
    (net : Url → UpstreamResp Url) (resolveLoc : String → Url → Url) :
    ∀ (fuel : Nat) (current : Url) (g a : List Url),
      fetchesValidated g a
        (fetchWithRedirectValidation guard allow net resolveLoc fuel current).1 = true := by
  intro fuel
  induction fuel with
  | zero => intro current g a; rfl
  | succ fuel ih =>
    intro current g a
    simp only [fetchWithRedirectValidation]
    cases hg : guard current with
    | some e => simp [fetchesValidated]
    | none =>
      simp only
      by_cases ha : allow current = false
      · rw [if_pos ha]; simp [fetchesValidated]
      · rw [if_neg ha]
        cases hloc : (if 300 ≤ (net current).status ∧ (net current).status < 400
            then (net current).location else none) with
        | none =>
          simp [fetchesValidated]
        | some loc =>
          simp only
          cases hgn : guard (resolveLoc loc current) with
          | some e =>
            simp [fetchesValidated]
          | none =>
            simp only
            by_cases han : allow (resolveLoc loc current) = false
            · rw [if_pos han]; simp [fetchesValidated]
            · rw [if_neg han]
              simp only [fetchesValidated]
              rw [if_pos (by simp)]
              exact ih _ _ _

end Mirror

namespace Mirror

/-- If every response is a redirect with a Location and guard and
allowlist always pass, the loop exhausts its fuel and fails with
too_many_redirects. -/
theorem redirect_forever_fails {Url : Type} [DecidableEq Url]
    (guard : Url → Option String) (allow : Url → Bool)
    (net : Url → UpstreamResp Url) (resolveLoc : String → Url → Url)
    (hg : ∀ u, guard u = none) (ha : ∀ u, allow u = true)
    (hr : ∀ u, 300 ≤ (net u).status ∧ (net u).status < 400 ∧ (net u).location.isSome = true) :
    ∀ fuel current,
      (fetchWithRedirectValidation guard allow net resolveLoc fuel current).2 =
        .failure "too_many_redirects" := by
  intro fuel
  induction fuel with
  | zero => intro current; rfl
  | succ fuel ih =>
    intro current
    simp only [fetchWithRedirectValidation, hg]
    rw [if_neg (by simp [ha])]
    obtain ⟨h1, h2, h3⟩ := hr current
    obtain ⟨loc, hl⟩ := Option.isSome_iff_exists.mp h3
    rw [if_pos ⟨h1, h2⟩, hl]
    simp only [hg]
    rw [if_neg (by simp [ha])]
    exact ih _

/-- C1: in `fetchWithRedirectValidation`, every fetch of a URL is preceded
in the action trace by an evaluation of the SSRF guard and of the
allowlist matcher on that URL (this covers the initial URL and every
redirect target), and when every hop answers with a redirect carrying a
Location, the bounded loop of 5 hops ends with too_many_redirects. -/
theorem C1_redirect_loop_validates_and_bounds {Url : Type} [DecidableEq Url]
    (guard : Url → Option String) (allow : Url → Bool)
    (net : Url → UpstreamResp Url) (resolveLoc : String → Url → Url) (u0 : Url) :
    fetchesValidated [] []
      (fetchWithRedirectValidation guard allow net resolveLoc 5 u0).1 = true ∧
    ((∀ u, guard u = none) → (∀ u, allow u = true) →
     (∀ u, 300 ≤ (net u).status ∧ (net u).status < 400 ∧ (net u).location.isSome = true) →
     (fetchWithRedirectValidation guard allow net resolveLoc 5 u0).2 =
       .failure "too_many_redirects") :=
  ⟨fetchesValidated_loop guard allow net resolveLoc 5 u0 [] [],
   fun hg ha hr => redirect_forever_fails guard allow net resolveLoc hg ha hr 5 u0⟩

/-- Witness for C1: a network that always answers 301 with a Location,
under a passing guard and allowlist. -/
theorem C1_redirect_loop_witness :
    fetchesValidated [] []
      (fetchWithRedirectValidation (fun _ : Unit => (none : Option String))
        (fun _ => true) (fun _ => ⟨301, some "x"⟩) (fun _ _ => ()) 5 ()).1 = true ∧
    (fetchWithRedirectValidation (fun _ : Unit => (none : Option String))
        (fun _ => true) (fun _ => ⟨301, some "x"⟩) (fun _ _ => ()) 5 ()).2 =
      .failure "too_many_redirects" :=
  ⟨(C1_redirect_loop_validates_and_bounds (fun _ : Unit => none) (fun _ => true) (fun _ => ⟨301, some "x"⟩)
      (fun _ _ => ()) ()).1,
   (C1_redirect_loop_validates_and_bounds (fun _ : Unit => none) (fun _ => true) (fun _ => ⟨301, some "x"⟩)
      (fun _ _ => ()) ()).2 (fun _ => rfl) (fun _ => rfl) (fun _ => by decide)⟩

end Mirror


namespace Mirror

/-! ## URL parsing -/

/-- Split at the first occurrence of `sep`: `(before, none)` when absent,
`(before, some after)` when present. -/
def splitAtFirst (sep : Char) : List Char → List Char × Option (List Char)
  | [] => ([], none)
  | c :: rest =>
    if c = sep then ([], some rest)
    else
      let r := splitAtFirst sep rest
      (c :: r.1, r.2)

/-- The default-port normalization the JS URL object applies. -/
def normalizePort (scheme : String) (n : Nat) : Option Nat :=
  if (scheme = "https" ∧ n = 443) ∨ (scheme = "http" ∧ n = 80) then none else some n

/-- Authority, path and query parsing for an http(s) URL body (everything
after "scheme://"). Userinfo ends at the last "@" of the authority; the
port must be decimal and below 65536; dot-segment and percent-encoding
normalization of the path are not modelled. -/
def parseAfterScheme (scheme : String) (rest : List Char) : Option Url :=
  let auth := rest.takeWhile (fun c => c ≠ '/' ∧ c ≠ '?' ∧ c ≠ '#')
  let tail := rest.dropWhile (fun c => c ≠ '/' ∧ c ≠ '?' ∧ c ≠ '#')
  let split0 := splitAtFirst '@' auth.reverse
  let userinfo : Option (List Char) := (split0.2).map List.reverse
  let hostport : List Char := split0.1.reverse
  let creds : String × String :=
    match userinfo with
    | none => ("", "")
    | some ui =>
      let s := splitAtFirst ':' ui
      (⟨s.1⟩, ⟨(s.2).getD []⟩)
  let hp := splitAtFirst ':' hostport
  if hp.1 = [] then none
  else
    let hostname : String := strLower ⟨hp.1⟩
    let portOpt : Option (Option Nat) :=
      match hp.2 with
      | none => some none
      | some [] => some none
      | some ds =>
        match strToNat? ⟨ds⟩ with
        | some n => if n < 65536 then some (normalizePort scheme n) else none
        | none => none
    match portOpt with
    | none => none
    | some port =>
      let pq := (splitAtFirst '#' tail).1
      let pqs := splitAtFirst '?' pq
      let path : String := if pqs.1 = [] then "/" else ⟨pqs.1⟩
      let query : String :=
        match pqs.2 with
        | none => ""
        | some [] => ""
        | some qs => "?" ++ (⟨qs⟩ : String)
      some { scheme := scheme, username := creds.1, password := creds.2,
             hostname := hostname, port := port, path := path, query := query }

/-- `new URL(s)` restricted to absolute http(s) URLs. Other schemes parse
in JS but are rejected by the guard with invalid_scheme immediately after;
the model folds them into parse failure (invalid_url), which every
consumer treats as the same failure path. -/
def urlParse (s : String) : Option Url :=
  let cs := (strTrim s).toList
  if (cs.take 8).map lowerChar = "https://".toList then
    parseAfterScheme "https" (cs.drop 8)
  else if (cs.take 7).map lowerChar = "http://".toList then
    parseAfterScheme "http" (cs.drop 7)
  else none

/-! ## Mirror registry (src/db/sqlite.ts) and slug allocation -/

structure MirrorRecord where
  id : String
  slug : String
  targetOrigin : String
  createdAt : String
  updatedAt : String
  lastPath : Option String
  disabled : Bool
deriving DecidableEq, Repr

/-- The mirrors table, in insertion order. -/
abbrev Registry := List MirrorRecord

/-- `SELECT * FROM mirrors WHERE slug = ?` (slug is UNIQUE). -/
def findMirrorBySlug (reg : Registry) (slug : String) : Option MirrorRecord :=
  reg.find? (fun m => m.slug == slug)

/-- `SELECT * FROM mirrors WHERE target_origin = ? AND disabled = 0`. -/
def findMirrorByOrigin (reg : Registry) (origin : String) : Option MirrorRecord :=
  reg.find? (fun m => m.targetOrigin == origin && !m.disabled)

/-- `UPDATE mirrors SET updated_at = ?, last_path = COALESCE(?, last_path)
WHERE slug = ?`. -/
def touchMirror (reg : Registry) (slug : String) (now : String)
    (lastPath : Option String) : Registry :=
  reg.map (fun m =>
    if m.slug == slug then
      { m with updatedAt := now,
               lastPath := match lastPath with
                 | some p => some p
                 | none => m.lastPath }
    else m)

def isLowerAlnum (c : Char) : Bool := ('a' ≤ c ∧ c ≤ 'z') ∨ ('0' ≤ c ∧ c ≤ '9')

def collapseDashes : List Char → List Char
  | [] => []
  | c :: rest =>
    let r := collapseDashes rest
    if c = '-' then
      match r with
      | '-' :: t => '-' :: t
      | t => '-' :: t
    else c :: r

/-- `slugifyHost` of src/mirror/proxy.ts: lowercase, fold runs of
non-[a-z0-9] to "-", strip surrounding "-", truncate to 48, default
"site". Mapping every non-alphanumeric character to "-" and collapsing
consecutive dashes equals replacing each run by one dash. -/
def slugifyHost (host : String) : String :=
  let folded := collapseDashes
    ((strLower host).toList.map (fun c => if isLowerAlnum c then c else '-'))
  let stripped := ((folded.dropWhile (· = '-')).reverse.dropWhile (· = '-')).reverse
  let sliced := stripped.take 48
  if sliced = [] then "site" else ⟨sliced⟩

/-- `ensureUniqueSlug` of src/mirror/proxy.ts: try base, then base-2 ..
base-999, then base-<random hex>; `rand` stands for the character draw. -/
def ensureUniqueSlug (base : String) (taken : String → Bool) (rand : String) : String :=
  if taken base = false then base
  else
    match (List.range' 2 998).find? (fun i => !taken (base ++ "-" ++ toString i)) with
    | some i => base ++ "-" ++ toString i
    | none => base ++ "-" ++ rand

structure ResolveOutcome where
  created : Bool
  mirror : MirrorRecord
deriving DecidableEq, Repr

/-- `resolveOrCreateMirrorForUrl` of src/mirror/proxy.ts. `now`, `rand`
and `newId` stand for the clock, the random suffix draw and the generated
row id. `createMirror` re-reads the inserted row by its (free) slug, which
is the record itself. -/
def resolveOrCreateMirrorForUrl (reg : Registry) (now rand newId : String) (url : Url) :
    Registry × ResolveOutcome :=
  let targetOrigin := url.protocol ++ "//" ++ url.host
  match findMirrorByOrigin reg targetOrigin with
  | some existing =>
    (touchMirror reg existing.slug now (some (url.pathname ++ url.search)),
     ⟨false, existing⟩)
  | none =>
    let baseSlug := slugifyHost url.hostname
    let slug := ensureUniqueSlug baseSlug (fun c => (findMirrorBySlug reg c).isSome) rand
    let record : MirrorRecord :=
      { id := newId, slug := slug, targetOrigin := targetOrigin, createdAt := now,
        updatedAt := now, lastPath := some (url.pathname ++ url.search), disabled := false }
    (reg ++ [record], ⟨true, record⟩)

def hexDigitChar (n : Nat) : Char :=
  if n < 10 then Char.ofNat (48 + n) else Char.ofNat (55 + n)

/-- `encodeURIComponent` on ASCII input (slugs are [a-z0-9-]; multi-byte
UTF-8 expansion is not modelled). -/
def encodeURIComponent (s : String) : String :=
  ⟨(s.toList.map (fun c =>
      if c.isAlphanum ∨ c ∈ ['-', '_', '.', '!', '~', '*', '\'', '(', ')'] then [c]
      else ['%', hexDigitChar (c.toNat / 16 % 16), hexDigitChar (c.toNat % 16)])).flatten⟩

/-- `buildLaunchUrl` of src/mirror/proxy.ts. -/
def buildLaunchUrl (slug : String) (url : Url) : String :=
  let path := if url.pathname = "/" then "" else url.pathname
  "/m/" ++ encodeURIComponent slug ++ path ++ url.search

structure ResolveSuccess where
  slug : String
  targetOrigin : String
  launchUrl : String
  created : Bool
deriving DecidableEq, Repr

/-- `resolveTargetUrl` of src/mirror/proxy.ts with the registry state made
explicit. The resolve/resolve-fail event log lives in the events table,
not in the mirrors registry, and is not modelled here. -/
def resolveTargetUrl (dns : String → List String) (allowlist : List AllowlistEntry)
    (allowHttp : Bool) (reg : Registry) (now rand newId : String) (rawUrl : String) :
    Registry × Except String ResolveSuccess :=
  match urlParse rawUrl with
  | none => (reg, .error "invalid_url")
  | some parsed =>
    match assertSafeUrl dns parsed allowHttp with
    | .error e => (reg, .error e)
    | .ok _ =>
      if allowlistIsAllowed allowlist parsed = false then (reg, .error "domain_not_allowed")
      else
        let r := resolveOrCreateMirrorForUrl reg now rand newId parsed
        (r.1, .ok { slug := r.2.mirror.slug, targetOrigin := r.2.mirror.targetOrigin,
                    launchUrl := buildLaunchUrl r.2.mirror.slug parsed,
                    created := r.2.created })

end Mirror

namespace Mirror

/-- C4: whenever `resolveTargetUrl` fails (invalid_url, invalid_scheme,
credentials_not_allowed, ssrf_blocked, dns_resolution_failed or
domain_not_allowed), the mirror registry it returns is the registry it was
given: no mirror record is created and no record is touched. -/
theorem C4_resolve_failure_registry_unchanged (dns : String → List String) (al : List AllowlistEntry) (ah : Bool)
    (reg : Registry) (now rand newId rawUrl : String) (e : String)
    (hfail : (resolveTargetUrl dns al ah reg now rand newId rawUrl).2 = .error e) :
    (resolveTargetUrl dns al ah reg now rand newId rawUrl).1 = reg := by
  unfold resolveTargetUrl at hfail ⊢
  cases hp : urlParse rawUrl with
  | none => simp only [hp]
  | some parsed =>
    simp only [hp] at hfail ⊢
    cases hg : assertSafeUrl dns parsed ah with
    | error err => simp only [hg]
    | ok u =>
      simp only [hg] at hfail ⊢
      by_cases ha : allowlistIsAllowed al parsed = false
      · rw [if_pos ha]
      · rw [if_neg ha] at hfail
        simp at hfail

/-- Witness for C4: an empty allowlist rejects https://example.com/ with
domain_not_allowed and the (empty) registry is unchanged. -/
theorem C4_witness :
    ((resolveTargetUrl (fun _ => ["93.184.216.34"]) [] false
        [] "t1" "r1" "i1" "https://example.com/").2 = .error "domain_not_allowed") ∧
    (resolveTargetUrl (fun _ => ["93.184.216.34"]) [] false
        [] "t1" "r1" "i1" "https://example.com/").1 = [] :=
  ⟨by decide,
   C4_resolve_failure_registry_unchanged (fun _ => ["93.184.216.34"]) [] false [] "t1" "r1" "i1" "https://example.com/"
     "domain_not_allowed" (by decide)⟩

end Mirror

namespace Mirror

/-- C8 counterexample: with a registry that already holds an enabled
record for https://example.com, the first of two consecutive resolves of
https://example.com/ returns created = false, not the claimed true. -/
theorem C8_counterexample :
    (resolveTargetUrl (fun _ => ["93.184.216.34"])
      [⟨"example-com", "example.com", false, ["https"], true⟩] false
      [⟨"m1", "example-com", "https://example.com", "t0", "t0", none, false⟩]
      "t1" "r1" "i1" "https://example.com/").2 =
      .ok ⟨"example-com", "https://example.com", "/m/example-com", false⟩ := by decide

/-- C8 amended: starting from a registry with no enabled record for the
URL's origin, two consecutive resolves of the same URL (no interleaving
registry mutation) return the same slug, with created = true on the first
call and created = false on the second. -/
theorem C8_amended_resolve_idempotent (dns : String → List String) (al : List AllowlistEntry) (ah : Bool)
    (reg : Registry) (n1 r1 i1 n2 r2 i2 rawUrl : String) (parsed : Url)
    (hp : urlParse rawUrl = some parsed)
    (hg : assertSafeUrl dns parsed ah = .ok ())
    (ha : allowlistIsAllowed al parsed = true)
    (hf : findMirrorByOrigin reg (parsed.protocol ++ "//" ++ parsed.host) = none) :
    ∃ s : String,
      (resolveTargetUrl dns al ah reg n1 r1 i1 rawUrl).2 =
        .ok ⟨s, parsed.protocol ++ "//" ++ parsed.host, buildLaunchUrl s parsed, true⟩ ∧
      (resolveTargetUrl dns al ah (resolveTargetUrl dns al ah reg n1 r1 i1 rawUrl).1
          n2 r2 i2 rawUrl).2 =
        .ok ⟨s, parsed.protocol ++ "//" ++ parsed.host, buildLaunchUrl s parsed, false⟩ := by
  have hanot : ¬ allowlistIsAllowed al parsed = false := by simp [ha]
  refine ⟨ensureUniqueSlug (slugifyHost parsed.hostname)
    (fun c => (findMirrorBySlug reg c).isSome) r1, ?_, ?_⟩
  · unfold resolveTargetUrl
    simp only [hp, hg]
    rw [if_neg hanot]
    unfold resolveOrCreateMirrorForUrl
    simp only [hf]
  · unfold resolveTargetUrl
    simp only [hp, hg]
    rw [if_neg hanot, if_neg hanot]
    unfold resolveOrCreateMirrorForUrl
    simp only [hf]
    have hfind : findMirrorByOrigin
        (reg ++ [{ id := i1,
                   slug := ensureUniqueSlug (slugifyHost parsed.hostname)
                     (fun c => (findMirrorBySlug reg c).isSome) r1,
                   targetOrigin := parsed.protocol ++ "//" ++ parsed.host,
                   createdAt := n1, updatedAt := n1,
                   lastPath := some (parsed.pathname ++ parsed.search),
                   disabled := false }])
        (parsed.protocol ++ "//" ++ parsed.host) =
        some { id := i1,
               slug := ensureUniqueSlug (slugifyHost parsed.hostname)
                 (fun c => (findMirrorBySlug reg c).isSome) r1,
               targetOrigin := parsed.protocol ++ "//" ++ parsed.host,
               createdAt := n1, updatedAt := n1,
               lastPath := some (parsed.pathname ++ parsed.search),
               disabled := false } := by
      unfold findMirrorByOrigin at hf ⊢
      rw [List.find?_append, hf]
      simp
    simp only [hfind]

end Mirror

namespace Mirror

/-- Witness for C8 at https://example.com/ on an empty registry. -/
theorem C8_amended_witness :
    urlParse "https://example.com/" =
      some ⟨"https", "", "", "example.com", none, "/", ""⟩ ∧
    ∃ s : String,
      (resolveTargetUrl (fun _ => ["93.184.216.34"])
        [⟨"example-com", "example.com", false, ["https"], true⟩] false
        [] "t1" "r1" "i1" "https://example.com/").2 =
        .ok ⟨s, Url.protocol ⟨"https", "", "", "example.com", none, "/", ""⟩ ++ "//" ++
                Url.host ⟨"https", "", "", "example.com", none, "/", ""⟩,
             buildLaunchUrl s ⟨"https", "", "", "example.com", none, "/", ""⟩, true⟩ ∧
      (resolveTargetUrl (fun _ => ["93.184.216.34"])
        [⟨"example-com", "example.com", false, ["https"], true⟩] false
        (resolveTargetUrl (fun _ => ["93.184.216.34"])
          [⟨"example-com", "example.com", false, ["https"], true⟩] false
          [] "t1" "r1" "i1" "https://example.com/").1
        "t2" "r2" "i2" "https://example.com/").2 =
        .ok ⟨s, Url.protocol ⟨"https", "", "", "example.com", none, "/", ""⟩ ++ "//" ++
                Url.host ⟨"https", "", "", "example.com", none, "/", ""⟩,
             buildLaunchUrl s ⟨"https", "", "", "example.com", none, "/", ""⟩, false⟩ :=
  ⟨by decide,
   C8_amended_resolve_idempotent (fun _ => ["93.184.216.34"])
     [⟨"example-com", "example.com", false, ["https"], true⟩] false
     [] "t1" "r1" "i1" "t2" "r2" "i2" "https://example.com/"
     ⟨"https", "", "", "example.com", none, "/", ""⟩
     (by decide) (by decide) (by decide) (by decide)⟩

end Mirror


namespace Mirror

/-! ## File cache (src/cache/file-cache.ts)

The cache directory is modelled as two association lists keyed by file
name: metadata files (`<safeSlug>_<cacheKey>.json`, holding a parsed
`CacheEntryMeta` or `none` when the JSON is unparseable) and body files
(`<safeSlug>_<cacheKey>.bin`, holding opaque bytes as a string). `now` is
`Date.now()` in epoch milliseconds. The float comparison
`(now - cachedAt) / 1000 > ttlSeconds` equals the integer comparison
`now - cachedAt > ttlSeconds * 1000` (with truncated subtraction agreeing
with the JS negative case, where both sides answer false). -/

structure CacheMeta where
  cacheKey : String
  slug : String
  cachedAt : Nat
  contentType : String
  status : Nat
  headers : List (String × String)
  bodyFile : String
  size : Nat
deriving DecidableEq, Repr

structure CachedResponse where
  status : Nat
  headers : List (String × String)
  body : String
  contentType : String
  cachedAt : Nat
deriving DecidableEq, Repr

structure CacheFS where
  metas : List (String × Option CacheMeta)
  bodies : List (String × String)
deriving DecidableEq, Repr

def safeChar (c : Char) : Bool :=
  ('a' ≤ c ∧ c ≤ 'z') ∨ ('A' ≤ c ∧ c ≤ 'Z') ∨ ('0' ≤ c ∧ c ≤ '9') ∨ c = '_' ∨ c = '-'

/-- `safeSlug`: fold characters outside [A-Za-z0-9_-] to "_", truncate to
80, default "default". -/
def safeSlug (slug : String) : String :=
  let folded := (slug.toList.map (fun c => if safeChar c then c else '_')).take 80
  if folded = [] then "default" else ⟨folded⟩

def metaFileName (slug cacheKey : String) : String :=
  safeSlug slug ++ "_" ++ cacheKey ++ ".json"

def bodyFileName (slug cacheKey : String) : String :=
  safeSlug slug ++ "_" ++ cacheKey ++ ".bin"

def fsGet {α : Type} (l : List (String × α)) (k : String) : Option α :=
  (l.find? (fun p => p.1 == k)).map (fun p => p.2)

def fsRemove {α : Type} (l : List (String × α)) (k : String) : List (String × α) :=
  l.filter (fun p => p.1 != k)

/-- `fs.writeFileSync`: the whole file is replaced. -/
def fsPut {α : Type} (l : List (String × α)) (k : String) (v : α) : List (String × α) :=
  fsRemove l k ++ [(k, v)]

/-- `FileCache.get`. -/
def cacheGet (fs : CacheFS) (ttlSeconds now : Nat) (slug cacheKey : String) :
    CacheFS × Option CachedResponse :=
  let metaFile := metaFileName slug cacheKey
  match fsGet fs.metas metaFile with
  | none => (fs, none)
  | some none => ({ fs with metas := fsRemove fs.metas metaFile }, none)
  | some (some meta) =>
    if ttlSeconds * 1000 < now - meta.cachedAt then
      (⟨fsRemove fs.metas metaFile, fsRemove fs.bodies meta.bodyFile⟩, none)
    else
      match fsGet fs.bodies meta.bodyFile with
      | none => ({ fs with metas := fsRemove fs.metas metaFile }, none)
      | some body =>
        (fs, some ⟨meta.status, meta.headers, body, meta.contentType, meta.cachedAt⟩)

/-- One surviving entry as `prune` collects it. -/
structure PruneItem where
  metaPath : String
  bodyPath : String
  cachedAt : Nat
  size : Nat
deriving DecidableEq, Repr

/-- The walk of `prune` over the metadata files, in directory order:
orphaned metadata (unparseable, or body file missing) is removed, expired
pairs are removed, and the survivors are collected. Body removals are
threaded so that a later metadata entry naming an already-removed body
counts as orphaned, exactly as the filesystem would answer. -/
def pruneScan (ttl now : Nat) :
    List (String × Option CacheMeta) → List (String × String) →
    List (String × Option CacheMeta) × List (String × String) × List PruneItem
  | [], bodies => ([], bodies, [])
  | (_, none) :: rest, bodies => pruneScan ttl now rest bodies
  | (name, some meta) :: rest, bodies =>
    if (fsGet bodies meta.bodyFile).isNone then
      pruneScan ttl now rest bodies
    else if ttl * 1000 < now - meta.cachedAt then
      pruneScan ttl now rest (fsRemove bodies meta.bodyFile)
    else
      let r := pruneScan ttl now rest bodies
      ((name, some meta) :: r.1, r.2.1,
       ⟨name, meta.bodyFile, meta.cachedAt, meta.size⟩ :: r.2.2)

def itemsSize (items : List PruneItem) : Nat := (items.map (fun it => it.size)).sum

/-- The eviction loop of `prune`: walk the cachedAt-ascending survivors,
removing entries while the running total exceeds maxBytes; returns the
evicted prefix. -/
def evictWhile (maxB : Nat) : Nat → List PruneItem → List PruneItem
  | _, [] => []
  | total, it :: rest =>
    if total ≤ maxB then [] else it :: evictWhile maxB (total - it.size) rest

/-- `prune` of src/cache/file-cache.ts. `metas.sort((a, b) => a.cachedAt -
b.cachedAt)` is a stable ascending sort, modelled by `insertionSort`. -/
def cachePrune (fs : CacheFS) (ttl maxB now : Nat) : CacheFS :=
  let scan := pruneScan ttl now fs.metas fs.bodies
  let total := itemsSize scan.2.2
  if total ≤ maxB then ⟨scan.1, scan.2.1⟩
  else
    let sorted := List.insertionSort (fun a b => a.cachedAt ≤ b.cachedAt) scan.2.2
    let evicted := evictWhile maxB total sorted
    ⟨scan.1.filter (fun p => !(evicted.any (fun e => e.metaPath == p.1))),
     scan.2.1.filter (fun p => !(evicted.any (fun e => e.bodyPath == p.1)))⟩

/-- `FileCache.set`: refuse oversized entries (`size > maxBytes / 2` over
floats equals `2 * size > maxBytes` over integers), else write body and
metadata and prune. -/
def cacheSet (fs : CacheFS) (ttl maxB now : Nat) (slug cacheKey : String)
    (resp : CachedResponse) : CacheFS :=
  let size := resp.body.toList.length
  if maxB < 2 * size then fs
  else
    let bodyFile := bodyFileName slug cacheKey
    let meta : CacheMeta :=
      ⟨cacheKey, slug, now, resp.contentType, resp.status, resp.headers, bodyFile, size⟩
    let fs1 : CacheFS := ⟨fsPut fs.metas (metaFileName slug cacheKey) (some meta),
                          fsPut fs.bodies bodyFile resp.body⟩
    cachePrune fs1 ttl maxB now

/-- The entries `prune` would keep: parseable, body present, non-expired. -/
def liveItems (fs : CacheFS) (ttl now : Nat) : List PruneItem :=
  (pruneScan ttl now fs.metas fs.bodies).2.2

/-- Total byte size of live cache entries. -/
def liveSize (fs : CacheFS) (ttl now : Nat) : Nat := itemsSize (liveItems fs ttl now)

end Mirror

namespace Mirror

def metaEntrySize (p : String × Option CacheMeta) : Nat :=
  match p.2 with
  | some m => m.size
  | none => 0

def metaListSize (ms : List (String × Option CacheMeta)) : Nat :=
  (ms.map metaEntrySize).sum

theorem itemsSize_nil : itemsSize [] = 0 := rfl

theorem itemsSize_cons (it : PruneItem) (l : List PruneItem) :
    itemsSize (it :: l) = it.size + itemsSize l := by
  simp [itemsSize]

theorem itemsSize_filter_le (p : PruneItem → Bool) (l : List PruneItem) :
    itemsSize (l.filter p) ≤ itemsSize l := by
  induction l with
  | nil => exact Nat.le_refl _
  | cons it rest ih =>
    rw [List.filter_cons]
    by_cases hp : p it = true
    · rw [if_pos hp, itemsSize_cons, itemsSize_cons]
      omega
    · rw [if_neg hp, itemsSize_cons]
      omega

theorem itemsSize_perm {l₁ l₂ : List PruneItem} (h : l₁.Perm l₂) :
    itemsSize l₁ = itemsSize l₂ := by
  simp only [itemsSize]
  exact (h.map (fun it => it.size)).sum_eq

theorem itemsSize_append (l₁ l₂ : List PruneItem) :
    itemsSize (l₁ ++ l₂) = itemsSize l₁ + itemsSize l₂ := by
  simp [itemsSize]

/-- The items a scan collects weigh no more than its metadata files. -/
theorem pruneScan_size_le (ttl now : Nat) :
    ∀ (ms : List (String × Option CacheMeta)) (bs : List (String × String)),
      itemsSize (pruneScan ttl now ms bs).2.2 ≤ metaListSize ms := by
  intro ms
  induction ms with
  | nil => intro bs; exact Nat.le_refl _
  | cons entry rest ih =>
    intro bs
    match entry with
    | (name, none) =>
      simp only [pruneScan]
      calc itemsSize (pruneScan ttl now rest bs).2.2 ≤ metaListSize rest := ih bs
        _ ≤ metaListSize ((name, none) :: rest) := by simp [metaListSize, metaEntrySize]
    | (name, some meta) =>
      simp only [pruneScan]
      by_cases h1 : (fsGet bs meta.bodyFile).isNone = true
      · rw [if_pos h1]
        calc itemsSize (pruneScan ttl now rest bs).2.2 ≤ metaListSize rest := ih bs
          _ ≤ metaListSize ((name, some meta) :: rest) := by
            simp [metaListSize, metaEntrySize]
      · rw [if_neg h1]
        by_cases h2 : ttl * 1000 < now - meta.cachedAt
        · rw [if_pos h2]
          calc itemsSize (pruneScan ttl now rest (fsRemove bs meta.bodyFile)).2.2
              ≤ metaListSize rest := ih _
            _ ≤ metaListSize ((name, some meta) :: rest) := by
              simp [metaListSize, metaEntrySize]
        · rw [if_neg h2]
          rw [itemsSize_cons]
          have := ih bs
          simp only [metaListSize, List.map_cons, List.sum_cons, metaEntrySize]
          simp only [metaListSize] at this
          omega

/-- Filtering the collected items by meta-file name weighs the same as
filtering the kept metadata files by the same names: the scan pairs them
one to one. -/
theorem pruneScan_filter_size (ttl now : Nat) (P : String → Bool) :
    ∀ (ms : List (String × Option CacheMeta)) (bs : List (String × String)),
      itemsSize ((pruneScan ttl now ms bs).2.2.filter (fun it => P it.metaPath)) =
      metaListSize ((pruneScan ttl now ms bs).1.filter (fun p => P p.1)) := by
  intro ms
  induction ms with
  | nil => intro bs; rfl
  | cons entry rest ih =>
    intro bs
    match entry with
    | (name, none) =>
      simp only [pruneScan]
      exact ih bs
    | (name, some meta) =>
      simp only [pruneScan]
      by_cases h1 : (fsGet bs meta.bodyFile).isNone = true
      · rw [if_pos h1]; exact ih bs
      · rw [if_neg h1]
        by_cases h2 : ttl * 1000 < now - meta.cachedAt
        · rw [if_pos h2]; exact ih _
        · rw [if_neg h2]
          simp only [List.filter_cons]
          by_cases hP : P name = true
          · simp only [hP, if_pos]
            rw [itemsSize_cons]
            simp only [metaListSize, List.map_cons, List.sum_cons, metaEntrySize]
            rw [ih bs]
            rfl
          · simp only [hP]
            rw [if_neg (by simp [hP]), if_neg (by simp [hP])]
            exact ih bs

end Mirror

namespace Mirror

/-- The eviction loop removes an initial segment of its input and leaves
a suffix weighing at most maxBytes. -/
theorem evictWhile_take_drop (maxB : Nat) :
    ∀ (l : List PruneItem) (total : Nat), total = itemsSize l →
      ∃ k, evictWhile maxB total l = l.take k ∧ itemsSize (l.drop k) ≤ maxB := by
  intro l
  induction l with
  | nil => intro total h; exact ⟨0, rfl, by simp [itemsSize]⟩
  | cons it rest ih =>
    intro total h
    by_cases hle : total ≤ maxB
    · refine ⟨0, by simp [evictWhile, hle], ?_⟩
      simpa [← h] using hle
    · have h2 : total - it.size = itemsSize rest := by
        rw [h, itemsSize_cons]; omega
      obtain ⟨k, he, hs⟩ := ih (total - it.size) h2
      refine ⟨k + 1, ?_, by simpa using hs⟩
      simp only [evictWhile, if_neg hle, he, List.take_succ_cons]

/-- Every item the eviction loop evicts fails the keep filter. -/
theorem evicted_filter_nil (evicted : List PruneItem) :
    evicted.filter (fun it => !(evicted.any (fun e => e.metaPath == it.metaPath))) = [] := by
  rw [List.filter_eq_nil_iff]
  intro it hit
  simp only [Bool.not_eq_true', Bool.not_eq_false]
  exact List.any_eq_true.mpr ⟨it, hit, by simp⟩

/-- After `prune`, the live entries weigh at most maxBytes. -/
theorem cachePrune_live_le (fs : CacheFS) (ttl maxB now : Nat) :
    liveSize (cachePrune fs ttl maxB now) ttl now ≤ maxB := by
  unfold cachePrune
  by_cases hle : itemsSize (pruneScan ttl now fs.metas fs.bodies).2.2 ≤ maxB
  · rw [if_pos hle]
    calc liveSize ⟨(pruneScan ttl now fs.metas fs.bodies).1,
          (pruneScan ttl now fs.metas fs.bodies).2.1⟩ ttl now
        ≤ metaListSize (pruneScan ttl now fs.metas fs.bodies).1 :=
          pruneScan_size_le ttl now _ _
      _ = itemsSize ((pruneScan ttl now fs.metas fs.bodies).2.2) := by
          have := pruneScan_filter_size ttl now (fun _ => true) fs.metas fs.bodies
          simpa using this.symm
      _ ≤ maxB := hle
  · rw [if_neg hle]
    set items := (pruneScan ttl now fs.metas fs.bodies).2.2 with hitems
    set sorted := List.insertionSort (fun a b => a.cachedAt ≤ b.cachedAt) items with hsorted
    have hperm : sorted.Perm items := List.perm_insertionSort _ items
    have htot : itemsSize items = itemsSize sorted := (itemsSize_perm hperm).symm
    obtain ⟨k, hev, hkept⟩ := evictWhile_take_drop maxB sorted (itemsSize items) htot
    set evicted := evictWhile maxB (itemsSize items) sorted with hevicted
    set P : String → Bool := fun nm => !(evicted.any (fun e => e.metaPath == nm)) with hP
    calc liveSize ⟨(pruneScan ttl now fs.metas fs.bodies).1.filter (fun p => P p.1),
          (pruneScan ttl now fs.metas fs.bodies).2.1.filter
            (fun p => !(evicted.any (fun e => e.bodyPath == p.1)))⟩ ttl now
        ≤ metaListSize ((pruneScan ttl now fs.metas fs.bodies).1.filter (fun p => P p.1)) :=
          pruneScan_size_le ttl now _ _
      _ = itemsSize (items.filter (fun it => P it.metaPath)) :=
          (pruneScan_filter_size ttl now P fs.metas fs.bodies).symm
      _ = itemsSize (sorted.filter (fun it => P it.metaPath)) :=
          itemsSize_perm (hperm.filter _).symm
      _ ≤ maxB := by
          have hsplit : sorted = sorted.take k ++ sorted.drop k := (List.take_append_drop k sorted).symm
          rw [hsplit, List.filter_append, itemsSize_append, ← hev]
          have h1 : evicted.filter (fun it => P it.metaPath) = [] := by
            rw [hP]
            exact evicted_filter_nil evicted
          rw [h1]
          have h2 : itemsSize ((sorted.drop k).filter (fun it => P it.metaPath)) ≤
              itemsSize (sorted.drop k) := itemsSize_filter_le _ _
          simp only [itemsSize_nil]
          omega

end Mirror

namespace Mirror

instance : IsTotal PruneItem (fun a b => a.cachedAt ≤ b.cachedAt) :=
  ⟨fun x y => Nat.le_total x.cachedAt y.cachedAt⟩

instance : IsTrans PruneItem (fun a b => a.cachedAt ≤ b.cachedAt) :=
  ⟨fun _ _ _ => Nat.le_trans⟩

/-- C6: after every successful `FileCache.set` (one that is not refused
for exceeding maxBytes / 2), the total byte size of live cache entries is
at most maxBytes; and whenever eviction is required (live total above
maxBytes), the eviction loop removes an initial segment of the survivors
sorted by ascending cachedAt — every evicted entry is at least as old as
every kept one — until the total is at most maxBytes. -/
theorem C6_cacheSet_bounded_oldest_first_eviction (fs : CacheFS) (ttl maxB now : Nat)
    (slug key : String) (resp : CachedResponse)
    (hsz : 2 * resp.body.toList.length ≤ maxB) :
    liveSize (cacheSet fs ttl maxB now slug key resp) ttl now ≤ maxB ∧
    (∀ fs2 : CacheFS, maxB < liveSize fs2 ttl now →
      ∃ k,
        evictWhile maxB (liveSize fs2 ttl now)
          (List.insertionSort (fun a b => a.cachedAt ≤ b.cachedAt) (liveItems fs2 ttl now)) =
        (List.insertionSort (fun a b => a.cachedAt ≤ b.cachedAt) (liveItems fs2 ttl now)).take k ∧
        itemsSize ((List.insertionSort (fun a b => a.cachedAt ≤ b.cachedAt)
          (liveItems fs2 ttl now)).drop k) ≤ maxB ∧
        ∀ e ∈ (List.insertionSort (fun a b => a.cachedAt ≤ b.cachedAt)
          (liveItems fs2 ttl now)).take k,
          ∀ r ∈ (List.insertionSort (fun a b => a.cachedAt ≤ b.cachedAt)
            (liveItems fs2 ttl now)).drop k,
          e.cachedAt ≤ r.cachedAt) := by
  constructor
  · unfold cacheSet
    rw [if_neg (by omega)]
    exact cachePrune_live_le _ ttl maxB now
  · intro fs2 hover
    set items := liveItems fs2 ttl now with hitems
    set sorted := List.insertionSort (fun a b => a.cachedAt ≤ b.cachedAt) items with hsorted
    have hperm : sorted.Perm items := List.perm_insertionSort _ items
    have htot : liveSize fs2 ttl now = itemsSize sorted := (itemsSize_perm hperm).symm
    obtain ⟨k, hev, hkept⟩ := evictWhile_take_drop maxB sorted _ htot
    refine ⟨k, hev, hkept, ?_⟩
    have hsortedp : List.Sorted (fun a b : PruneItem => a.cachedAt ≤ b.cachedAt) sorted :=
      List.sorted_insertionSort _ items
    have hsplit : sorted = sorted.take k ++ sorted.drop k := (List.take_append_drop k sorted).symm
    rw [hsplit] at hsortedp
    exact (List.pairwise_append.mp hsortedp).2.2

/-- Witness for C6: inserting a 5-byte body into a cache holding 6 live
bytes under maxBytes = 10 prunes back below the limit. -/
theorem C6_witness :
    2 * ("HTML!".toList.length) ≤ 10 ∧
    liveSize (cacheSet
      ⟨[("old_k0.json", some ⟨"k0", "old", 1000, "text/plain", 200, [], "old_k0.bin", 6⟩)],
       [("old_k0.bin", "abcdef")]⟩
      60 10 5000 "ex" "k1" ⟨200, [], "HTML!", "text/html", 0⟩) 60 5000 ≤ 10 :=
  ⟨by decide,
   (C6_cacheSet_bounded_oldest_first_eviction
      ⟨[("old_k0.json", some ⟨"k0", "old", 1000, "text/plain", 200, [], "old_k0.bin", 6⟩)],
       [("old_k0.bin", "abcdef")]⟩
      60 10 5000 "ex" "k1" ⟨200, [], "HTML!", "text/html", 0⟩ (by decide)).1⟩

/-- C7: `FileCache.get` returns a miss and removes both files when the
entry is older than the TTL; returns a miss and removes only the metadata
file when the metadata is unparseable or the body file is absent; and
otherwise returns the stored status, headers and body. -/
theorem C7_cacheGet_ttl_orphan_hit (fs : CacheFS) (ttl now : Nat) (slug key : String) :
    (∀ meta, fsGet fs.metas (metaFileName slug key) = some (some meta) →
      ttl * 1000 < now - meta.cachedAt →
      cacheGet fs ttl now slug key =
        (⟨fsRemove fs.metas (metaFileName slug key), fsRemove fs.bodies meta.bodyFile⟩, none)) ∧
    (fsGet fs.metas (metaFileName slug key) = some none →
      cacheGet fs ttl now slug key =
        ({ fs with metas := fsRemove fs.metas (metaFileName slug key) }, none)) ∧
    (∀ meta, fsGet fs.metas (metaFileName slug key) = some (some meta) →
      ¬ ttl * 1000 < now - meta.cachedAt →
      fsGet fs.bodies meta.bodyFile = none →
      cacheGet fs ttl now slug key =
        ({ fs with metas := fsRemove fs.metas (metaFileName slug key) }, none)) ∧
    (∀ meta body, fsGet fs.metas (metaFileName slug key) = some (some meta) →
      ¬ ttl * 1000 < now - meta.cachedAt →
      fsGet fs.bodies meta.bodyFile = some body →
      cacheGet fs ttl now slug key =
        (fs, some ⟨meta.status, meta.headers, body, meta.contentType, meta.cachedAt⟩)) := by
  refine ⟨?_, ?_, ?_, ?_⟩
  · intro meta hm hexp
    unfold cacheGet
    simp only [hm]
    rw [if_pos hexp]
  · intro hm
    unfold cacheGet
    simp only [hm]
  · intro meta hm hexp hb
    unfold cacheGet
    simp only [hm, hb]
    rw [if_neg hexp]
  · intro meta body hm hexp hb
    unfold cacheGet
    simp only [hm, hb]
    rw [if_neg hexp]

end Mirror

namespace Mirror

/-- A concrete cache directory exercising all four `get` cases: k1 expired,
k2 unparseable metadata, k3 body file missing, k4 live. -/
def c7FS : CacheFS :=
  ⟨[("s_k1.json", some ⟨"k1", "s", 0, "text/plain", 200, [], "s_k1.bin", 3⟩),
    ("s_k2.json", none),
    ("s_k3.json", some ⟨"k3", "s", 1500, "text/plain", 200, [], "s_k3.bin", 3⟩),
    ("s_k4.json", some ⟨"k4", "s", 1500, "text/html", 200,
       [("content-type", "text/html")], "s_k4.bin", 5⟩)],
   [("s_k1.bin", "abc"), ("s_k4.bin", "hello")]⟩

/-- Witness for C7 on a concrete directory exercising all four cases. -/
theorem C7_witness :
    (cacheGet c7FS 1 2000 "s" "k1" =
      (⟨fsRemove c7FS.metas (metaFileName "s" "k1"), fsRemove c7FS.bodies "s_k1.bin"⟩, none)) ∧
    (cacheGet c7FS 1 2000 "s" "k2" =
      ({ c7FS with metas := fsRemove c7FS.metas (metaFileName "s" "k2") }, none)) ∧
    (cacheGet c7FS 1 2000 "s" "k3" =
      ({ c7FS with metas := fsRemove c7FS.metas (metaFileName "s" "k3") }, none)) ∧
    (cacheGet c7FS 1 2000 "s" "k4" =
      (c7FS, some ⟨200, [("content-type", "text/html")], "hello", "text/html", 1500⟩)) :=
  ⟨(C7_cacheGet_ttl_orphan_hit c7FS 1 2000 "s" "k1").1 ⟨"k1", "s", 0, "text/plain", 200, [], "s_k1.bin", 3⟩
      (by decide) (by decide),
   (C7_cacheGet_ttl_orphan_hit c7FS 1 2000 "s" "k2").2.1 (by decide),
   (C7_cacheGet_ttl_orphan_hit c7FS 1 2000 "s" "k3").2.2.1 ⟨"k3", "s", 1500, "text/plain", 200, [], "s_k3.bin", 3⟩
      (by decide) (by decide) (by decide),
   (C7_cacheGet_ttl_orphan_hit c7FS 1 2000 "s" "k4").2.2.2
      ⟨"k4", "s", 1500, "text/html", 200, [("content-type", "text/html")], "s_k4.bin", 5⟩
      "hello" (by decide) (by decide) (by decide)⟩

end Mirror


namespace Mirror

/-! ## HTML rewriter (src/mirror/rewrite-html.ts) -/

def splitPathQuery (cs : List Char) : String × String :=
  let pq := (splitAtFirst '#' cs).1
  let pqs := splitAtFirst '?' pq
  let query : String :=
    match pqs.2 with
    | none => ""
    | some [] => ""
    | some qs => "?" ++ (⟨qs⟩ : String)
  (⟨pqs.1⟩, query)

/-- The directory part of a path: everything up to and including the last
slash. -/
def dirOf (path : String) : String :=
  ⟨(path.toList.reverse.dropWhile (· ≠ '/')).reverse⟩

/-- `new URL(value, base)` for the shapes the rewriters meet: absolute
http(s) URLs, protocol-relative, root-relative, query-only and relative
references. Dot-segment normalization is not modelled; it never changes
the origin, which is all the rewriting decision reads. Other schemes
(data:, mailto:, ...) are screened off by the callers before resolution. -/
def resolveUrl (value : String) (base : Url) : Option Url :=
  match urlParse value with
  | some abs => some abs
  | none =>
    let cs := value.toList
    if strStartsWith value "//" then urlParse (base.scheme ++ ":" ++ value)
    else if strStartsWith value "/" then
      let pq := splitPathQuery cs
      some { base with path := pq.1, query := pq.2 }
    else if strStartsWith value "?" then
      let inner := ((splitAtFirst '#' cs).1).drop 1
      some { base with query := if inner = [] then "" else "?" ++ (⟨inner⟩ : String) }
    else
      let pq := splitPathQuery cs
      some { base with path := dirOf base.path ++ pq.1, query := pq.2 }

/-- `buildMirrorPath` of src/mirror/rewrite-html.ts. -/
def buildMirrorPath (slug : String) (url : Url) : String :=
  let path := if url.pathname = "/" then "" else url.pathname
  "/m/" ++ encodeURIComponent slug ++ path ++ url.search

/-- `maybeRewriteUrl` of src/mirror/rewrite-html.ts. -/
def maybeRewriteUrl (raw : String) (baseUrl targetOrigin : Url) (slug : String) : String :=
  let value := strTrim raw
  if value = "" then raw
  else if strStartsWith value "#" || strStartsWith value "data:" ||
      strStartsWith value "mailto:" || strStartsWith value "tel:" ||
      strStartsWith value "javascript:" then raw
  else
    match resolveUrl value baseUrl with
    | none => raw
    | some resolved =>
      if resolved.origin ≠ targetOrigin.origin then raw
      else buildMirrorPath slug resolved

/-- Whitespace-run tokenizer, `split(/\s+/)` on a trimmed string. -/
def splitWsAux : List Char → List Char → List (List Char)
  | [], acc => if acc = [] then [] else [acc.reverse]
  | c :: rest, acc =>
    if wsChar c then
      if acc = [] then splitWsAux rest []
      else acc.reverse :: splitWsAux rest []
    else splitWsAux rest (c :: acc)

def joinSep (sep : String) : List String → String
  | [] => ""
  | [s] => s
  | s :: rest => s ++ sep ++ joinSep sep rest

/-- `rewriteSrcset` of src/mirror/rewrite-html.ts: split on commas, trim,
rewrite the URL of each `<url> <descriptor?>` pair (`split(/\s+/, 2)`
keeps at most two tokens), rejoin with ", ". -/
def rewriteSrcset (raw : String) (baseUrl targetOrigin : Url) (slug : String) : String :=
  let parts := ((splitOnChar ',' raw).map strTrim).filter (fun s => s ≠ "")
  let rewritten := parts.map (fun item =>
    let toks := splitWsAux item.toList []
    let urlPart : String := match toks with
      | [] => ""
      | u :: _ => ⟨u⟩
    let descriptor : Option String := match toks with
      | _ :: d :: _ => some ⟨d⟩
      | _ => none
    let next := maybeRewriteUrl urlPart baseUrl targetOrigin slug
    match descriptor with
    | some d => next ++ " " ++ d
    | none => next)
  joinSep ", " rewritten

/-! The document model: a flat element list per section. An element is a
tag with its attribute list (attribute names unique, as cheerio parses
them; `attr(name, value)` overwrites the first matching pair). -/

structure HtmlEl where
  tag : String
  attrs : List (String × String)
deriving DecidableEq, Repr

structure HtmlDoc where
  head : List HtmlEl
  body : List HtmlEl
deriving DecidableEq, Repr

def getAttr (el : HtmlEl) (name : String) : Option String :=
  (el.attrs.find? (fun p => p.1 == name)).map (fun p => p.2)

def setAttrList (name v : String) : List (String × String) → List (String × String)
  | [] => [(name, v)]
  | p :: rest => if p.1 == name then (name, v) :: rest else p :: setAttrList name v rest

def setAttr (el : HtmlEl) (name v : String) : HtmlEl :=
  { el with attrs := setAttrList name v el.attrs }

/-- The (tag, attributes) table of `rewriteHtmlDocument`. -/
def attrSelectors : List (String × List String) :=
  [("a", ["href"]), ("link", ["href"]), ("script", ["src"]), ("img", ["src"]),
   ("img", ["srcset"]), ("source", ["src", "srcset"]), ("video", ["src", "poster"]),
   ("audio", ["src"]), ("iframe", ["src"]), ("form", ["action"])]

/-- The per-attribute body of the rewriting loop: skip missing or empty
values, rewrite srcset with `rewriteSrcset` and the rest with
`maybeRewriteUrl`, and store the result when non-empty. -/
def rewriteAttr (baseUrl targetOrigin : Url) (slug : String) (el : HtmlEl)
    (attr : String) : HtmlEl :=
  match getAttr el attr with
  | none => el
  | some current =>
    if current == "" then el
    else if attr == "srcset" then
      let next := rewriteSrcset current baseUrl targetOrigin slug
      if next == "" then el else setAttr el attr next
    else
      let next := maybeRewriteUrl current baseUrl targetOrigin slug
      if next == "" then el else setAttr el attr next

def rewriteEl (baseUrl targetOrigin : Url) (slug : String) (el : HtmlEl) : HtmlEl :=
  attrSelectors.foldl (fun el sel =>
    if el.tag == sel.1 then sel.2.foldl (rewriteAttr baseUrl targetOrigin slug) el
    else el) el

def robotsMeta : HtmlEl := ⟨"meta", [("name", "robots"), ("content", "noindex,nofollow")]⟩

/-- `$('head meta[name="robots"]').length !== 0`. -/
def hasRobotsMeta (head : List HtmlEl) : Bool :=
  head.any (fun el => el.tag == "meta" && (getAttr el "name" == some "robots"))

/-- `rewriteHtmlDocument` of src/mirror/rewrite-html.ts: remove `<base>`
elements, rewrite the selected attributes everywhere, and prepend a
robots meta to `<head>` when none is present. -/
def rewriteHtmlDocument (doc : HtmlDoc) (baseUrl targetOrigin : Url) (slug : String) :
    HtmlDoc :=
  let head1 := (doc.head.filter (fun el => el.tag != "base")).map
    (rewriteEl baseUrl targetOrigin slug)
  let body1 := (doc.body.filter (fun el => el.tag != "base")).map
    (rewriteEl baseUrl targetOrigin slug)
  let head2 := if hasRobotsMeta head1 then head1 else robotsMeta :: head1
  ⟨head2, body1⟩

end Mirror

namespace Mirror

/-- C3 counterexample: with baseUrl and targetOrigin both
https://example.com, rewriting `<a href="/x">` once yields
/m/example-com/x, and a second pass rewrites that in-origin value again to
/m/example-com/m/example-com/x, so the second pass is not a no-op. -/
theorem C3_counterexample :
    rewriteHtmlDocument
      (rewriteHtmlDocument ⟨[], [⟨"a", [("href", "/x")]⟩]⟩
        ⟨"https", "", "", "example.com", none, "/", ""⟩
        ⟨"https", "", "", "example.com", none, "/", ""⟩ "example-com")
      ⟨"https", "", "", "example.com", none, "/", ""⟩
      ⟨"https", "", "", "example.com", none, "/", ""⟩ "example-com" ≠
    rewriteHtmlDocument ⟨[], [⟨"a", [("href", "/x")]⟩]⟩
      ⟨"https", "", "", "example.com", none, "/", ""⟩
      ⟨"https", "", "", "example.com", none, "/", ""⟩ "example-com" := by decide

/-- The first pass leaves an attribute value unchanged. -/
def attrUntouchedB (baseUrl targetOrigin : Url) (slug attr value : String) : Bool :=
  if attr == "srcset" then rewriteSrcset value baseUrl targetOrigin slug == value
  else maybeRewriteUrl value baseUrl targetOrigin slug == value

/-- Every rewritable attribute of the document (per the selector table) is
left unchanged by the rewriter. -/
def docAttrsUntouched (doc : HtmlDoc) (baseUrl targetOrigin : Url) (slug : String) : Bool :=
  (doc.head ++ doc.body).all (fun el =>
    attrSelectors.all (fun sel =>
      if el.tag == sel.1 then
        sel.2.all (fun attr =>
          match getAttr el attr with
          | none => true
          | some v => attrUntouchedB baseUrl targetOrigin slug attr v)
      else true))

theorem foldl_mem_fixed {α β : Type} (f : β → α → β) :
    ∀ (l : List α) (x : β), (∀ y ∈ l, f x y = x) → l.foldl f x = x := by
  intro l
  induction l with
  | nil => intro x _; rfl
  | cons a rest ih =>
    intro x h
    rw [List.foldl_cons, h a (List.mem_cons_self a rest)]
    exact ih x (fun y hy => h y (List.mem_cons_of_mem a hy))

theorem map_fixed {α : Type} (f : α → α) :
    ∀ (l : List α), (∀ x ∈ l, f x = x) → l.map f = l := by
  intro l
  induction l with
  | nil => intro _; rfl
  | cons a rest ih =>
    intro h
    rw [List.map_cons, h a (List.mem_cons_self a rest),
      ih (fun y hy => h y (List.mem_cons_of_mem a hy))]

theorem setAttrList_self (attr v : String) :
    ∀ (l : List (String × String)),
      ((l.find? (fun p => p.1 == attr)).map (fun p => p.2)) = some v →
      setAttrList attr v l = l := by
  intro l
  induction l with
  | nil => intro h; simp at h
  | cons p rest ih =>
    intro h
    by_cases hp : (p.1 == attr) = true
    · rw [List.find?_cons_of_pos _ (by simpa using hp)] at h
      have h2 : p.2 = v := by simpa using h
      have h1 : p.1 = attr := eq_of_beq hp
      unfold setAttrList
      rw [if_pos hp, ← h1, ← h2]
    · rw [List.find?_cons_of_neg _ (by simpa using hp)] at h
      unfold setAttrList
      rw [if_neg hp, ih h]

theorem setAttr_self (el : HtmlEl) (attr v : String) (hv : getAttr el attr = some v) :
    setAttr el attr v = el := by
  unfold getAttr at hv
  unfold setAttr
  rw [setAttrList_self attr v el.attrs hv]

end Mirror

namespace Mirror

/-- An untouched attribute leaves `rewriteAttr` fixed. -/
theorem rewriteAttr_fixed (b t : Url) (s : String) (el : HtmlEl) (attr : String)
    (h : (match getAttr el attr with
          | none => true
          | some v => attrUntouchedB b t s attr v) = true) :
    rewriteAttr b t s el attr = el := by
  unfold rewriteAttr
  cases hv : getAttr el attr with
  | none => rfl
  | some v =>
    rw [hv] at h
    dsimp only at h ⊢
    by_cases hemp : (v == "") = true
    · simp only [hemp, if_pos]
    · rw [if_neg (by simpa using hemp)]
      unfold attrUntouchedB at h
      by_cases hsrc : (attr == "srcset") = true
      · rw [if_pos hsrc] at h
        have hnext : rewriteSrcset v b t s = v := eq_of_beq h
        rw [if_pos hsrc]
        simp only [hnext]
        rw [if_neg (by simpa using hemp)]
        exact setAttr_self el attr v hv
      · rw [if_neg hsrc] at h
        have hnext : maybeRewriteUrl v b t s = v := eq_of_beq h
        rw [if_neg hsrc]
        simp only [hnext]
        rw [if_neg (by simpa using hemp)]
        exact setAttr_self el attr v hv

end Mirror

namespace Mirror

theorem rewriteEl_fixed (b t : Url) (s : String) (el : HtmlEl)
    (h : attrSelectors.all (fun sel =>
      if el.tag == sel.1 then
        sel.2.all (fun attr =>
          match getAttr el attr with
          | none => true
          | some v => attrUntouchedB b t s attr v)
      else true) = true) :
    rewriteEl b t s el = el := by
  unfold rewriteEl
  apply foldl_mem_fixed
  intro sel hsel
  rw [List.all_eq_true] at h
  have hs := h sel hsel
  by_cases htag : (el.tag == sel.1) = true
  · rw [if_pos htag] at hs ⊢
    apply foldl_mem_fixed
    intro attr hattr
    rw [List.all_eq_true] at hs
    exact rewriteAttr_fixed b t s el attr (hs attr hattr)
  · rw [if_neg htag]

theorem rewriteAttr_tag (b t : Url) (s : String) (el : HtmlEl) (attr : String) :
    (rewriteAttr b t s el attr).tag = el.tag := by
  unfold rewriteAttr
  split
  · rfl
  · split
    · rfl
    · split
      · dsimp only
        split
        · rfl
        · rfl
      · dsimp only
        split
        · rfl
        · rfl

theorem rewriteEl_tag (b t : Url) (s : String) (el : HtmlEl) :
    (rewriteEl b t s el).tag = el.tag := by
  unfold rewriteEl
  have hinner : ∀ (attrs : List String) (e : HtmlEl),
      (attrs.foldl (rewriteAttr b t s) e).tag = e.tag := by
    intro attrs
    induction attrs with
    | nil => intro e; rfl
    | cons a arest aih =>
      intro e
      rw [List.foldl_cons, aih, rewriteAttr_tag]
  have houter : ∀ (sels : List (String × List String)) (e : HtmlEl),
      (List.foldl (fun e sel =>
        if e.tag == sel.1 then sel.2.foldl (rewriteAttr b t s) e else e) e sels).tag =
      e.tag := by
    intro sels
    induction sels with
    | nil => intro e; rfl
    | cons sel rest ih =>
      intro e
      rw [List.foldl_cons, ih]
      by_cases htag : (e.tag == sel.1) = true
      · rw [if_pos htag]
        exact hinner sel.2 e
      · rw [if_neg htag]
  exact houter attrSelectors el

theorem hasRobots_after (h1 : List HtmlEl) :
    hasRobotsMeta (if hasRobotsMeta h1 then h1 else robotsMeta :: h1) = true := by
  by_cases h : hasRobotsMeta h1 = true
  · rw [if_pos h]; exact h
  · rw [if_neg h]
    unfold hasRobotsMeta
    rw [List.any_cons]
    rw [show (robotsMeta.tag == "meta" && (getAttr robotsMeta "name" == some "robots"))
      = true from by decide]
    rfl

theorem rewriteEl_robotsMeta (b t : Url) (s : String) :
    rewriteEl b t s robotsMeta = robotsMeta := rfl

/-- One pass on a document whose elements are all fixed and base-free,
with a robots meta already in head, changes nothing. -/
theorem rewrite_pass_of_clean (b t : Url) (s : String) (hd bd : List HtmlEl)
    (hhd : ∀ el ∈ hd, rewriteEl b t s el = el ∧ (el.tag != "base") = true)
    (hbd : ∀ el ∈ bd, rewriteEl b t s el = el ∧ (el.tag != "base") = true)
    (hrob : hasRobotsMeta hd = true) :
    rewriteHtmlDocument ⟨hd, bd⟩ b t s = ⟨hd, bd⟩ := by
  unfold rewriteHtmlDocument
  have h1 : hd.filter (fun el => el.tag != "base") = hd :=
    List.filter_eq_self.mpr (fun el hel => (hhd el hel).2)
  have h2 : bd.filter (fun el => el.tag != "base") = bd :=
    List.filter_eq_self.mpr (fun el hel => (hbd el hel).2)
  simp only [h1, h2]
  rw [map_fixed _ hd (fun el hel => (hhd el hel).1),
      map_fixed _ bd (fun el hel => (hbd el hel).1)]
  rw [if_pos hrob]

end Mirror

namespace Mirror

/-- C3 amended: base-element removal and robots-meta injection are
idempotent, but attribute rewriting is not; `rewriteHtmlDocument` is a
fixed point after one pass for every document whose rewritable attribute
values the rewriter leaves unchanged. This is a sufficient condition, not
a characterization: for non-srcset attributes it covers skipped prefixes,
empty values, and unresolvable or out-of-origin references, while a
srcset value must also survive the comma-split/trim/rejoin of
`rewriteSrcset` verbatim (an out-of-origin srcset may be reformatted on
the first pass and still reach a fixed point). -/
theorem C3_amended_fixed_point (doc : HtmlDoc) (b t : Url) (s : String)
    (h : docAttrsUntouched doc b t s = true) :
    rewriteHtmlDocument (rewriteHtmlDocument doc b t s) b t s =
      rewriteHtmlDocument doc b t s := by
  unfold docAttrsUntouched at h
  rw [List.all_eq_true] at h
  have hfix : ∀ el ∈ doc.head ++ doc.body, rewriteEl b t s el = el :=
    fun el hel => rewriteEl_fixed b t s el (h el hel)
  have hmapH : (doc.head.filter (fun el => el.tag != "base")).map (rewriteEl b t s) =
      doc.head.filter (fun el => el.tag != "base") :=
    map_fixed _ _ (fun el hel =>
      hfix el (List.mem_append_left _ (List.mem_of_mem_filter hel)))
  have hmapB : (doc.body.filter (fun el => el.tag != "base")).map (rewriteEl b t s) =
      doc.body.filter (fun el => el.tag != "base") :=
    map_fixed _ _ (fun el hel =>
      hfix el (List.mem_append_right _ (List.mem_of_mem_filter hel)))
  have hpass1 : rewriteHtmlDocument doc b t s =
      ⟨if hasRobotsMeta (doc.head.filter (fun el => el.tag != "base"))
          then doc.head.filter (fun el => el.tag != "base")
          else robotsMeta :: doc.head.filter (fun el => el.tag != "base"),
        doc.body.filter (fun el => el.tag != "base")⟩ := by
    unfold rewriteHtmlDocument
    simp only [hmapH, hmapB]
  rw [hpass1]
  apply rewrite_pass_of_clean
  · intro el hel
    have hcase : el = robotsMeta ∨ el ∈ doc.head.filter (fun el => el.tag != "base") := by
      by_cases hr : hasRobotsMeta (doc.head.filter (fun el => el.tag != "base")) = true
      · right; rw [if_pos hr] at hel; exact hel
      · rw [if_neg hr] at hel
        rcases List.mem_cons.mp hel with h1 | h1
        · left; exact h1
        · right; exact h1
    rcases hcase with h1 | h1
    · subst h1
      exact ⟨rewriteEl_robotsMeta b t s, by decide⟩
    · exact ⟨hfix el (List.mem_append_left _ (List.mem_of_mem_filter h1)),
        (List.mem_filter.mp h1).2⟩
  · intro el hel
    exact ⟨hfix el (List.mem_append_right _ (List.mem_of_mem_filter hel)),
      (List.mem_filter.mp hel).2⟩
  · exact hasRobots_after _

/-- A document whose rewritable attributes are all out of origin or
skipped: a cross-origin stylesheet link, a mailto link, a non-selector
element. -/
def c3CleanDoc : HtmlDoc :=
  ⟨[⟨"link", [("href", "https://cdn.other/style.css")]⟩],
   [⟨"a", [("href", "mailto:hi@example.com")]⟩, ⟨"p", [("class", "x")]⟩]⟩

/-- Witness for C3 amended on a document with only cross-origin and
skipped references. -/
theorem C3_amended_witness :
    docAttrsUntouched c3CleanDoc
      ⟨"https", "", "", "example.com", none, "/", ""⟩
      ⟨"https", "", "", "example.com", none, "/", ""⟩ "example-com" = true ∧
    rewriteHtmlDocument
      (rewriteHtmlDocument c3CleanDoc
        ⟨"https", "", "", "example.com", none, "/", ""⟩
        ⟨"https", "", "", "example.com", none, "/", ""⟩ "example-com")
      ⟨"https", "", "", "example.com", none, "/", ""⟩
      ⟨"https", "", "", "example.com", none, "/", ""⟩ "example-com" =
    rewriteHtmlDocument c3CleanDoc
      ⟨"https", "", "", "example.com", none, "/", ""⟩
      ⟨"https", "", "", "example.com", none, "/", ""⟩ "example-com" :=
  ⟨by decide,
   C3_amended_fixed_point c3CleanDoc
     ⟨"https", "", "", "example.com", none, "/", ""⟩
     ⟨"https", "", "", "example.com", none, "/", ""⟩ "example-com" (by decide)⟩

end Mirror
